import Mathlib

/-!
Shallow embedding of the fetchfy-operator core (Registry, MCP Server,
Service Watcher, Gateway Reconciler) together with proofs of the spec's
claims about it.  Go maps over string keys are modelled as association
lists; `nil` maps are modelled as `Option` being `none`; wall-clock time
is an explicit `Nat` parameter threaded through the operations.
-/

set_option autoImplicit false

namespace Fetchfy

/-- Kubernetes `types.NamespacedName`: identity of a namespaced object. -/
structure NamespacedName where
  name : String
  namesp : String
deriving DecidableEq, Repr

/-- Lookup in a Go `map[string]string`, modelled as an association list. -/
def lookupStr : List (String × String) → String → Option String
  | [], _ => none
  | (k, v) :: rest, key => if k = key then some v else lookupStr rest key

/-- `mcp.ServiceType`: role of an MCP service (`tool` or `agent`). -/
inductive ServiceType where
  | tool
  | agent
deriving DecidableEq, Repr

/-- The string value of a `ServiceType`, as in the Go string cast. -/
def ServiceType.str : ServiceType → String
  | .tool => "tool"
  | .agent => "agent"

/-- `mcp.ServiceStatus`: availability status of an MCP service. -/
inductive ServiceStatus where
  | available
  | pending
  | unavailable
deriving DecidableEq, Repr

/-- The string value of a `ServiceStatus`, as in the Go string cast. -/
def ServiceStatus.str : ServiceStatus → String
  | .available => "Available"
  | .pending => "Pending"
  | .unavailable => "Unavailable"

/-- The fields of `corev1.Service` the core reads: identity, labels,
annotations (each `none` when the Go map is `nil`), the service type of
its spec (e.g. `"ClusterIP"`) and its port list (only the length and the
numbers matter to the core). -/
structure KService where
  name : String
  namesp : String
  labels : Option (List (String × String))
  annotations : Option (List (String × String))
  specType : String
  ports : List Nat
deriving DecidableEq, Repr

/-- The identity key of a backend service. -/
def KService.key (s : KService) : NamespacedName :=
  ⟨s.name, s.namesp⟩

/-- `mcp.MCPService`: a registration record held by the Registry. -/
structure MCPService where
  name : String
  namesp : String
  type : ServiceType
  endpoint : String
  status : ServiceStatus
  service : KService
  updatedAt : Nat
deriving DecidableEq, Repr

/-- Point lookup in a Go map keyed by `NamespacedName`, modelled as an
association list. -/
def assocLookup {β : Type} : List (NamespacedName × β) → NamespacedName → Option β
  | [], _ => none
  | (k, v) :: rest, key => if k = key then some v else assocLookup rest key

/-- Map insertion `m[key] = v`: replaces the entry of the key in place
when present, otherwise appends. -/
def assocUpsert {β : Type} : List (NamespacedName × β) → NamespacedName → β →
    List (NamespacedName × β)
  | [], key, v => [(key, v)]
  | (k, w) :: rest, key, v =>
      if k = key then (key, v) :: rest else (k, w) :: assocUpsert rest key v

/-- Map deletion `delete(m, key)`. -/
def assocErase {β : Type} : List (NamespacedName × β) → NamespacedName →
    List (NamespacedName × β)
  | [], _ => []
  | (k, w) :: rest, key =>
      if k = key then rest else (k, w) :: assocErase rest key

/-- The list of keys currently present in the map. -/
def assocKeys {β : Type} (m : List (NamespacedName × β)) : List NamespacedName :=
  m.map Prod.fst

/-- The Registry's backing store `map[types.NamespacedName]*MCPService`. -/
abbrev RegistryStore := List (NamespacedName × MCPService)

namespace Registry

/-- `Registry.RegisterService`: validates that the service carries an
annotations map, computes the endpoint (explicit annotation value, else
the deterministic default) and the availability status, and upserts the
record by identity.  Returns the outcome together with the store after
the call; on failure the store is the one passed in (no partial insert).
`now` is the value of `time.Now()`. -/
def RegisterService (r : RegistryStore) (now : Nat) (svc : KService)
    (serviceType : ServiceType) : Except String MCPService × RegistryStore :=
  match svc.annotations with
  | none =>
      (.error ("service " ++ svc.namesp ++ "/" ++ svc.name ++ " has no annotations"), r)
  | some anns =>
      let endpoint :=
        match lookupStr anns "mcp.fetchfy.ai/endpoint" with
        | some e => e
        | none => "/mcp/" ++ svc.namesp ++ "/" ++ svc.name
      let status : ServiceStatus :=
        if svc.specType = "ClusterIP" ∧ 0 < svc.ports.length then .available
        else .pending
      let m : MCPService :=
        { name := svc.name, namesp := svc.namesp, type := serviceType,
          endpoint := endpoint, status := status, service := svc,
          updatedAt := now }
      (.ok m, assocUpsert r svc.key m)

/-- `Registry.DeregisterService`: removes by identity when present and
reports whether a removal occurred. -/
def DeregisterService (r : RegistryStore) (name : NamespacedName) :
    Bool × RegistryStore :=
  match assocLookup r name with
  | some _ => (true, assocErase r name)
  | none => (false, r)

/-- `Registry.GetService`: point lookup. -/
def GetService (r : RegistryStore) (name : NamespacedName) :
    Option MCPService × Bool :=
  match assocLookup r name with
  | some svc => (some svc, true)
  | none => (none, false)

/-- `Registry.ListServices`: snapshot of all current entries. -/
def ListServices (r : RegistryStore) : List MCPService :=
  r.map Prod.snd

end Registry

/-- `v1alpha1.MCPServiceInfo`: a registered service as published onto a
Gateway's status. -/
structure MCPServiceInfo where
  name : String
  namesp : String
  type : String
  endpoint : String
  status : String
  lastUpdated : Nat
deriving DecidableEq, Repr

/-- `metav1.ConditionStatus`. -/
inductive ConditionStatus where
  | condTrue
  | condFalse
  | condUnknown
deriving DecidableEq, Repr

/-- `metav1.Condition`, with the fields the controller writes. -/
structure Condition where
  type : String
  status : ConditionStatus
  lastTransitionTime : Nat
  reason : String
  message : String
  observedGeneration : Int
deriving DecidableEq, Repr

/-- `v1alpha1.GatewaySpec`: the desired state of a Gateway.  The label
selector is modelled by its `matchLabels` pairs. -/
structure GatewaySpec where
  mcpPort : Nat
  serviceSelector : List (String × String)
  enableTLS : Bool
  tlsSecretRef : String
deriving DecidableEq, Repr

/-- `v1alpha1.GatewayStatus`. -/
structure GatewayStatus where
  conditions : List Condition
  mcpServices : List MCPServiceInfo
  address : String
deriving DecidableEq, Repr

/-- `v1alpha1.Gateway`, with the object metadata the controller reads:
generation, deletion timestamp (`none` when unset) and finalizer list. -/
structure Gateway where
  name : String
  namesp : String
  generation : Int
  deletionTimestamp : Option Nat
  finalizers : List String
  spec : GatewaySpec
  status : GatewayStatus
deriving DecidableEq, Repr

/-- The identity key of a Gateway. -/
def Gateway.key (g : Gateway) : NamespacedName :=
  ⟨g.name, g.namesp⟩

/-- The projection of one registry record to status-summary form, as
built inside `UpdateRegistryStatus`. -/
def projInfo (svc : MCPService) : MCPServiceInfo :=
  { name := svc.name, namesp := svc.namesp, type := svc.type.str,
    endpoint := svc.endpoint, status := svc.status.str,
    lastUpdated := svc.updatedAt }

namespace Registry

/-- `Registry.UpdateRegistryStatus`: overwrites the Gateway's status
service list with the full current registry snapshot mapped to
status-summary form. -/
def UpdateRegistryStatus (r : RegistryStore) (gateway : Gateway) : Gateway :=
  { gateway with
      status := { gateway.status with mcpServices := r.map fun e => projInfo e.2 } }

end Registry

/-- `services.MCPEnabledLabel`. -/
def MCPEnabledLabel : String := "mcp-enabled"

/-- `services.MCPTypeAnnotation`. -/
def MCPTypeAnnotation : String := "mcp.fetchfy.ai/type"

/-- `controller.gatewayFinalizer`. -/
def gatewayFinalizer : String := "fetchfy.ai/finalizer"

/-- `services.IsMCPEnabledService`: the service carries the enablement
label set to the literal string `"true"` (false when the label map is
`nil`). -/
def IsMCPEnabledService (svc : KService) : Bool :=
  match svc.labels with
  | none => false
  | some ls =>
      match lookupStr ls MCPEnabledLabel with
      | some v => v = "true"
      | none => false

/-- Role detection shared by the Watcher and the Reconciler: `agent` when
the type annotation is present and equals `"agent"`, else the default
`tool`. -/
def serviceTypeOf (svc : KService) : ServiceType :=
  match svc.annotations with
  | none => .tool
  | some anns =>
      match lookupStr anns MCPTypeAnnotation with
      | some v => if v = ServiceType.agent.str then .agent else .tool
      | none => .tool

/-- Label-selector evaluation (`matchLabels` semantics): every selector
pair must be present verbatim among the service's labels. -/
def selectorMatches (sel : List (String × String)) (svc : KService) : Bool :=
  sel.all fun kv =>
    match svc.labels with
    | none => false
    | some ls => lookupStr ls kv.1 = some kv.2

namespace GatewayReconciler

/-- `controller.updateGatewayCondition` on the condition list: no-op when
the first entry of the type has equal status, reason and message;
otherwise replace that entry in place; append a new entry when the type
is absent.  `now` is `time.Now()`, `gen` the resource's generation. -/
def updateGatewayCondition (conds : List Condition) (conditionType : String)
    (status : ConditionStatus) (reason message : String) (now : Nat)
    (gen : Int) : List Condition :=
  match conds with
  | [] =>
      [{ type := conditionType, status := status, lastTransitionTime := now,
         reason := reason, message := message, observedGeneration := gen }]
  | c :: rest =>
      if c.type = conditionType then
        if c.status = status ∧ c.reason = reason ∧ c.message = message then
          c :: rest
        else
          { type := conditionType, status := status, lastTransitionTime := now,
            reason := reason, message := message, observedGeneration := gen } :: rest
      else
        c :: updateGatewayCondition rest conditionType status reason message now gen

end GatewayReconciler

/-- `mcp.Server`: the per-Gateway network listener.  The `httpServer`
pointer is modelled by the address it was built with (`none` before the
first `Start`). -/
structure MCPServer where
  port : Nat
  enableTLS : Bool
  tlsSecretName : String
  gatewayRef : NamespacedName
  started : Bool
  httpServerAddr : Option String
deriving DecidableEq, Repr

namespace MCPServer

/-- `mcp.NewServer`: a fresh, unstarted server. -/
def NewServer : MCPServer :=
  { port := 0, enableTLS := false, tlsSecretName := "",
    gatewayRef := ⟨"", ""⟩, started := false, httpServerAddr := none }

/-- `Server.Configure`: copies the gateway's desired settings. -/
def Configure (s : MCPServer) (gateway : Gateway) : MCPServer :=
  { s with
      port := gateway.spec.mcpPort,
      enableTLS := gateway.spec.enableTLS,
      tlsSecretName := gateway.spec.tlsSecretRef,
      gatewayRef := gateway.key }

/-- `Server.Start`: fails when already started, otherwise builds the
HTTP server for the configured port and marks the server started.  The
accept loop itself runs on an independent execution context and is out
of scope. -/
def Start (s : MCPServer) : Except String Unit × MCPServer :=
  if s.started then
    (.error "server already started", s)
  else
    (.ok (), { s with httpServerAddr := some (":" ++ toString s.port),
                      started := true })

/-- `Server.Stop`: no-op when never started, otherwise shuts down and
clears the started flag. -/
def Stop (s : MCPServer) : Except String Unit × MCPServer :=
  if ¬ s.started ∨ s.httpServerAddr = none then
    (.ok (), s)
  else
    (.ok (), { s with started := false })

/-- `Server.IsRunning`. -/
def IsRunning (s : MCPServer) : Bool :=
  s.started

end MCPServer

/-- The externally stored cluster state the core reads and writes: the
backend-service inventory and the stored Gateway objects. -/
structure Cluster where
  services : List KService
  gateways : List (NamespacedName × Gateway)
deriving DecidableEq, Repr

/-- `client.Get` on a service: fetch by identity (`none` models a
NotFound error). -/
def getService (cl : Cluster) (nn : NamespacedName) : Option KService :=
  cl.services.find? fun s => s.key = nn

/-- `client.Get` on a Gateway. -/
def getGateway (cl : Cluster) (nn : NamespacedName) : Option Gateway :=
  assocLookup cl.gateways nn

/-- `client.Update` on a Gateway: persists the object under its own
identity. -/
def putGateway (cl : Cluster) (g : Gateway) : Cluster :=
  { cl with gateways := assocUpsert cl.gateways g.key g }

/-- `client.Status().Update` on a Gateway: persists only the status
subresource of the stored object. -/
def putGatewayStatus (cl : Cluster) (g : Gateway) : Cluster :=
  match getGateway cl g.key with
  | none => cl
  | some stored => putGateway cl { stored with status := g.status }

namespace ServiceWatcher

/-- `ServiceWatcher.updateAllGatewayStatuses`: for every tracked Gateway
identity, re-fetch the stored Gateway, project the registry snapshot
onto its status and persist it; identities that fail to fetch are
skipped. -/
def updateAllGatewayStatuses (tracked : List (NamespacedName × Gateway))
    (reg : RegistryStore) (cl : Cluster) : Cluster :=
  tracked.foldl
    (fun acc e =>
      match getGateway acc e.1 with
      | none => acc
      | some g => putGatewayStatus acc (Registry.UpdateRegistryStatus reg g))
    cl

/-- `ServiceWatcher.Reconcile`: fetch the service; deregister on
NotFound or when no longer enablement-labeled; otherwise determine the
role from the type annotation, register, and on success push a status
refresh to every tracked Gateway.  A registration error is returned to
the dispatcher.  The result is the reconcile outcome, the registry
store after the call and the cluster after the call. -/
def Reconcile (cl : Cluster) (reg : RegistryStore)
    (tracked : List (NamespacedName × Gateway)) (req : NamespacedName)
    (now : Nat) : Except String Unit × RegistryStore × Cluster :=
  match getService cl req with
  | none =>
      let (_, reg') := Registry.DeregisterService reg req
      (.ok (), reg', cl)
  | some service =>
      if ¬ IsMCPEnabledService service then
        let (_, reg') := Registry.DeregisterService reg req
        (.ok (), reg', cl)
      else
        match Registry.RegisterService reg now service (serviceTypeOf service) with
        | (.error e, reg') => (.error e, reg', cl)
        | (.ok _, reg') => (.ok (), reg', updateAllGatewayStatuses tracked reg' cl)

end ServiceWatcher

namespace GatewayReconciler

/-- The mutable state owned by the reconciler process: the shared
Registry store, the per-Gateway server map and the Watcher's tracked
Gateway map. -/
structure RState where
  registry : RegistryStore
  servers : List (NamespacedName × MCPServer)
  tracked : List (NamespacedName × Gateway)
deriving DecidableEq, Repr

/-- Observable side effects of one reconcile invocation, in program
order. -/
inductive Action where
  | cleanup (nn : NamespacedName)
  | removeFinalizer (nn : NamespacedName)
  | addFinalizer (nn : NamespacedName)
  | statusUpdate (nn : NamespacedName)
deriving DecidableEq, Repr

/-- The `ctrl.Result`/error pair a reconcile invocation returns:
`success requeue requeueAfterSeconds` or `failure msg`. -/
inductive Outcome where
  | success (requeue : Bool) (requeueAfterSeconds : Nat)
  | failure (msg : String)
deriving DecidableEq, Repr

/-- `GatewayReconciler.cleanupGateway`: stop and discard the Gateway's
server (when one is owned) and untrack the Gateway from the Watcher. -/
def cleanupGateway (st : RState) (gatewayName : NamespacedName) : RState :=
  let servers :=
    match assocLookup st.servers gatewayName with
    | some _ => assocErase st.servers gatewayName
    | none => st.servers
  { st with servers := servers, tracked := assocErase st.tracked gatewayName }

/-- `GatewayReconciler.ensureMCPServer`: create the server lazily,
configure it from the Gateway's spec, and start it when not running.
Returns the outcome and the server map after the call. -/
def ensureMCPServer (servers : List (NamespacedName × MCPServer))
    (gateway : Gateway) :
    Except String Unit × List (NamespacedName × MCPServer) :=
  let server := (assocLookup servers gateway.key).getD MCPServer.NewServer
  let server := MCPServer.Configure server gateway
  if ¬ MCPServer.IsRunning server then
    match MCPServer.Start server with
    | (.error e, server') => (.error e, assocUpsert servers gateway.key server')
    | (.ok _, server') => (.ok (), assocUpsert servers gateway.key server')
  else
    (.ok (), assocUpsert servers gateway.key server)

/-- `GatewayReconciler.handleDeletion`: clean up first, then remove the
finalizer marker (all occurrences, as `controllerutil.RemoveFinalizer`
does) and persist when it was present. -/
def handleDeletion (cl : Cluster) (st : RState) (gateway : Gateway) :
    Outcome × Cluster × RState × List Action :=
  let st' := cleanupGateway st gateway.key
  if gatewayFinalizer ∈ gateway.finalizers then
    let gateway' :=
      { gateway with finalizers := gateway.finalizers.filter (· ≠ gatewayFinalizer) }
    (.success false 0, putGateway cl gateway', st',
      [.cleanup gateway.key, .removeFinalizer gateway.key])
  else
    (.success false 0, cl, st', [.cleanup gateway.key])

/-- The registration loop of `Reconcile` step 7: upsert every matching
service that carries the enablement label, ignoring per-service
registration errors. -/
def registerMatching (reg : RegistryStore) (now : Nat)
    (matching : List KService) : RegistryStore :=
  matching.foldl
    (fun r svc =>
      if IsMCPEnabledService svc then
        (Registry.RegisterService r now svc (serviceTypeOf svc)).2
      else r)
    reg

/-- `GatewayReconciler.Reconcile`: the top-level convergence function.
Returns the outcome, the cluster after the call, the reconciler state
after the call, and the trace of observable side effects. -/
def Reconcile (cl : Cluster) (st : RState) (req : NamespacedName)
    (now : Nat) : Outcome × Cluster × RState × List Action :=
  match getGateway cl req with
  | none =>
      (.success false 0, cl, cleanupGateway st req, [.cleanup req])
  | some gateway =>
      if gateway.deletionTimestamp.isSome then
        handleDeletion cl st gateway
      else if gatewayFinalizer ∉ gateway.finalizers then
        let gateway' :=
          { gateway with finalizers := gateway.finalizers ++ [gatewayFinalizer] }
        (.success true 0, putGateway cl gateway', st, [.addFinalizer req])
      else
        match ensureMCPServer st.servers gateway with
        | (.error e, servers') =>
            (.failure e, cl, { st with servers := servers' }, [])
        | (.ok _, servers') =>
            let tracked' := assocUpsert st.tracked gateway.key gateway
            let matching :=
              cl.services.filter (selectorMatches gateway.spec.serviceSelector)
            let reg' := registerMatching st.registry now matching
            let g1 := Registry.UpdateRegistryStatus reg' gateway
            let g2 :=
              { g1 with status :=
                  { g1.status with address := ":" ++ toString gateway.spec.mcpPort } }
            let conds1 := updateGatewayCondition g2.status.conditions
              "Ready" .condTrue "GatewayReady"
              ("Gateway is ready with " ++ toString g2.status.mcpServices.length ++
                " services")
              now gateway.generation
            let conds2 := updateGatewayCondition conds1
              "Available" .condTrue "GatewayConfigured" "Gateway is available"
              now gateway.generation
            let g3 := { g2 with status := { g2.status with conditions := conds2 } }
            (.success false 300, putGatewayStatus cl g3,
              { registry := reg', servers := servers', tracked := tracked' },
              [.statusUpdate req])

end GatewayReconciler

/-- The record `RegisterService` builds for a service (assuming the
annotations map is present): endpoint from the explicit annotation or
the deterministic default, availability from the network-exposure
attributes, and a fresh timestamp. -/
def regRecord (now : Nat) (svc : KService) (ty : ServiceType) : MCPService :=
  { name := svc.name, namesp := svc.namesp, type := ty,
    endpoint :=
      match svc.annotations with
      | some anns =>
          match lookupStr anns "mcp.fetchfy.ai/endpoint" with
          | some e => e
          | none => "/mcp/" ++ svc.namesp ++ "/" ++ svc.name
      | none => "/mcp/" ++ svc.namesp ++ "/" ++ svc.name,
    status :=
      if svc.specType = "ClusterIP" ∧ 0 < svc.ports.length then .available
      else .pending,
    service := svc, updatedAt := now }

/-- A registration record with the timestamp forgotten: the part of a
registry entry that does not depend on the wall clock. -/
structure MCPServiceCore where
  name : String
  namesp : String
  type : ServiceType
  endpoint : String
  status : ServiceStatus
  service : KService
deriving DecidableEq, Repr

/-- Forget the timestamp of a registration record. -/
def MCPService.core (m : MCPService) : MCPServiceCore :=
  ⟨m.name, m.namesp, m.type, m.endpoint, m.status, m.service⟩

/-- Forget the timestamps of a whole registry store. -/
def stripStore (r : RegistryStore) : List (NamespacedName × MCPServiceCore) :=
  r.map fun e => (e.1, e.2.core)

/-- The timestamp-free part of a published status entry. -/
def stripInfo (i : MCPServiceInfo) : String × String × String × String × String :=
  (i.name, i.namesp, i.type, i.endpoint, i.status)

/-- The published form of a timestamp-free registry entry. -/
def coreInfo (c : MCPServiceCore) : String × String × String × String × String :=
  (c.name, c.namesp, c.type.str, c.endpoint, c.status.str)

/-- Left fold of plain map insertions, the timestamp-free skeleton of
the reconciler's registration loop. -/
def upsertList {β : Type} (m : List (NamespacedName × β))
    (entries : List (NamespacedName × β)) : List (NamespacedName × β) :=
  entries.foldl (fun acc p => assocUpsert acc p.1 p.2) m

/-- The upsert sequence the reconciler's registration loop performs on
the timestamp-free store: one entry per matching service that carries
the enablement label and a non-nil annotations map. -/
def effEntries (l : List KService) : List (NamespacedName × MCPServiceCore) :=
  (l.filter fun svc =>
      IsMCPEnabledService svc && !(svc.annotations = none : Bool)).map
    fun svc => (svc.key, (regRecord 0 svc (serviceTypeOf svc)).core)

/-- A mutating Registry operation (used to state store invariants). -/
inductive RegOp where
  | register (now : Nat) (svc : KService) (ty : ServiceType)
  | deregister (nn : NamespacedName)
deriving Repr

/-- Apply one Registry operation to the store. -/
def applyRegOp (r : RegistryStore) : RegOp → RegistryStore
  | .register now svc ty => (Registry.RegisterService r now svc ty).2
  | .deregister nn => (Registry.DeregisterService r nn).2

/-- The store obtained by running a sequence of Registry operations
from the empty registry. -/
def applyRegOps (ops : List RegOp) : RegistryStore :=
  ops.foldl applyRegOp []

/-- A sequence of `RegisterService` calls, returning the final store. -/
def registerSeq (r : RegistryStore) (now : Nat)
    (svcs : List (KService × ServiceType)) : RegistryStore :=
  svcs.foldl (fun acc p => (Registry.RegisterService acc now p.1 p.2).2) r

/-- The first condition entry of a given type, as the update loop finds
it. -/
def findCond (conds : List Condition) (t : String) : Option Condition :=
  conds.find? fun c => c.type = t

/-- Registry-store well-formedness: every record carries the name and
namespace of its identity key (an invariant of `RegisterService`,
which keys each record by the service's own identity). -/
def wfStore (r : RegistryStore) : Prop :=
  ∀ e ∈ r, e.2.name = e.1.name ∧ e.2.namesp = e.1.namesp

/-- Cluster well-formedness: every stored Gateway sits under its own
identity key (what the external resource store guarantees). -/
def wfCluster (cl : Cluster) : Prop :=
  ∀ nn g, getGateway cl nn = some g → g.key = nn

/-- The registry store after the reconciler's registration loop over
the Gateway's selector-matching services. -/
def mainRegistry (cl : Cluster) (st : GatewayReconciler.RState) (gw : Gateway)
    (now : Nat) : RegistryStore :=
  GatewayReconciler.registerMatching st.registry now
    (cl.services.filter (selectorMatches gw.spec.serviceSelector))

/-- The Gateway object as the reconciler's happy path publishes it:
registry snapshot projected onto the status, address set from the
configured port, and the `Ready` and `Available` conditions updated. -/
def mainGateway (cl : Cluster) (st : GatewayReconciler.RState) (gw : Gateway)
    (now : Nat) : Gateway :=
  let reg := mainRegistry cl st gw now
  let g1 := Registry.UpdateRegistryStatus reg gw
  let g2 :=
    { g1 with status :=
        { g1.status with address := ":" ++ toString gw.spec.mcpPort } }
  let conds1 := GatewayReconciler.updateGatewayCondition g2.status.conditions
    "Ready" .condTrue "GatewayReady"
    ("Gateway is ready with " ++ toString g2.status.mcpServices.length ++
      " services")
    now gw.generation
  let conds2 := GatewayReconciler.updateGatewayCondition conds1
    "Available" .condTrue "GatewayConfigured" "Gateway is available"
    now gw.generation
  { g2 with status := { g2.status with conditions := conds2 } }

/-! ### Helper lemmas about the association-list map model -/

section AssocLemmas

variable {β : Type}

theorem assocLookup_upsert_self (m : List (NamespacedName × β)) (k : NamespacedName)
    (v : β) : assocLookup (assocUpsert m k v) k = some v := by
  induction m with
  | nil => simp [assocUpsert, assocLookup]
  | cons e rest ih =>
      obtain ⟨k', w⟩ := e
      by_cases h : k' = k
      · simp [assocUpsert, assocLookup, h]
      · simp [assocUpsert, assocLookup, h, ih]

theorem assocLookup_upsert_ne (m : List (NamespacedName × β)) (k k' : NamespacedName)
    (v : β) (h : k' ≠ k) :
    assocLookup (assocUpsert m k v) k' = assocLookup m k' := by
  induction m with
  | nil => simp [assocUpsert, assocLookup, Ne.symm h]
  | cons e rest ih =>
      obtain ⟨k0, w⟩ := e
      by_cases h0 : k0 = k
      · subst h0
        simp [assocUpsert, assocLookup, Ne.symm h]
      · simp only [assocUpsert, if_neg h0]
        by_cases h1 : k0 = k'
        · simp [assocLookup, h1]
        · simp [assocLookup, h1, ih]

theorem assocUpsert_lookup_self (m : List (NamespacedName × β)) (k : NamespacedName)
    (v : β) (h : assocLookup m k = some v) : assocUpsert m k v = m := by
  induction m with
  | nil => simp [assocLookup] at h
  | cons e rest ih =>
      obtain ⟨k0, w⟩ := e
      by_cases h0 : k0 = k
      · subst h0
        simp [assocLookup] at h
        simp [assocUpsert, h]
      · simp [assocLookup, h0] at h
        simp [assocUpsert, h0, ih h]

theorem assocKeys_upsert (m : List (NamespacedName × β)) (k : NamespacedName)
    (v : β) :
    assocKeys (assocUpsert m k v) =
      if k ∈ assocKeys m then assocKeys m else assocKeys m ++ [k] := by
  induction m with
  | nil => simp [assocUpsert, assocKeys]
  | cons e rest ih =>
      obtain ⟨k0, w⟩ := e
      by_cases h0 : k0 = k
      · subst h0
        simp [assocUpsert, assocKeys]
      · simp only [assocUpsert, if_neg h0, assocKeys, List.map_cons] at ih ⊢
        by_cases hm : k ∈ List.map Prod.fst rest
        · simp [hm, ih, Ne.symm h0]
        · simp [hm, ih, Ne.symm h0]

theorem assocKeys_upsert_nodup (m : List (NamespacedName × β)) (k : NamespacedName)
    (v : β) (h : (assocKeys m).Nodup) : (assocKeys (assocUpsert m k v)).Nodup := by
  rw [assocKeys_upsert]
  by_cases hm : k ∈ assocKeys m
  · simpa [hm]
  · simp only [hm, if_false]
    simpa [List.nodup_append] using ⟨h, hm⟩

theorem mem_assocUpsert {m : List (NamespacedName × β)} {k : NamespacedName}
    {v : β} {e : NamespacedName × β} (h : e ∈ assocUpsert m k v) :
    e ∈ m ∨ e = (k, v) := by
  induction m with
  | nil => simp [assocUpsert] at h; simp [h]
  | cons hd rest ih =>
      obtain ⟨k0, w⟩ := hd
      by_cases h0 : k0 = k
      · simp [assocUpsert, h0] at h
        rcases h with h | h
        · right; simp [h]
        · left; simp [h]
      · simp [assocUpsert, h0] at h
        rcases h with h | h
        · left; simp [h]
        · rcases ih h with h' | h'
          · left; simp [h']
          · right; exact h'

theorem mem_assocErase {m : List (NamespacedName × β)} {k : NamespacedName}
    {e : NamespacedName × β} (h : e ∈ assocErase m k) : e ∈ m := by
  induction m with
  | nil => simp [assocErase] at h
  | cons hd rest ih =>
      obtain ⟨k0, w⟩ := hd
      by_cases h0 : k0 = k
      · simp [assocErase, h0] at h
        simp [h]
      · simp [assocErase, h0] at h
        rcases h with h | h
        · simp [h]
        · simp [ih h]

theorem assocLookup_mem {m : List (NamespacedName × β)} {k : NamespacedName}
    (h : k ∈ assocKeys m) : ∃ v, assocLookup m k = some v := by
  induction m with
  | nil => simp [assocKeys] at h
  | cons hd rest ih =>
      obtain ⟨k0, w⟩ := hd
      by_cases h0 : k0 = k
      · exact ⟨w, by simp [assocLookup, h0]⟩
      · have h' : k ∈ assocKeys rest := by
          simp only [assocKeys, List.map_cons, List.mem_cons] at h
          rcases h with h | h
          · exact absurd h.symm h0
          · simpa [assocKeys] using h
        obtain ⟨v, hv⟩ := ih h'
        exact ⟨v, by simp [assocLookup, h0, hv]⟩

theorem assocErase_length {m : List (NamespacedName × β)} {k : NamespacedName}
    (h : k ∈ assocKeys m) : (assocErase m k).length + 1 = m.length := by
  induction m with
  | nil => simp [assocKeys] at h
  | cons hd rest ih =>
      obtain ⟨k0, w⟩ := hd
      by_cases h0 : k0 = k
      · simp [assocErase, h0]
      · simp only [assocKeys, List.map_cons, List.mem_cons] at h
        rcases h with h | h
        · exact absurd h.symm h0
        · simp only [assocErase, if_neg h0, List.length_cons]
          rw [← ih (by simpa [assocKeys] using h)]

end AssocLemmas

/-- Characterization of a successful `RegisterService` call: with a
non-nil annotations map the call returns the built record and upserts
it by the service's identity key. -/
theorem registerService_some (r : RegistryStore) (now : Nat) (svc : KService)
    (ty : ServiceType) (anns : List (String × String))
    (h : svc.annotations = some anns) :
    Registry.RegisterService r now svc ty =
      (Except.ok (regRecord now svc ty),
        assocUpsert r svc.key (regRecord now svc ty)) := by
  simp [Registry.RegisterService, regRecord, h]

/-- Looking up the persisted Gateway under its own key. -/
theorem getGateway_putGateway_self (cl : Cluster) (g : Gateway) :
    getGateway (putGateway cl g) g.key = some g := by
  simp [getGateway, putGateway, assocLookup_upsert_self]

/-- Persisting a Gateway leaves other keys untouched. -/
theorem getGateway_putGateway_ne (cl : Cluster) (g : Gateway)
    (nn : NamespacedName) (h : nn ≠ g.key) :
    getGateway (putGateway cl g) nn = getGateway cl nn := by
  simp [getGateway, putGateway, assocLookup_upsert_ne _ _ _ _ h]

/-- A successful lookup names an entry of the map. -/
theorem assocLookup_mem_pair {β : Type} {m : List (NamespacedName × β)}
    {k : NamespacedName} {v : β} (h : assocLookup m k = some v) : (k, v) ∈ m := by
  induction m with
  | nil => simp [assocLookup] at h
  | cons hd rest ih =>
      obtain ⟨k0, w⟩ := hd
      by_cases h0 : k0 = k
      · subst h0
        simp [assocLookup] at h
        simp [h]
      · simp only [assocLookup, if_neg h0] at h
        simp [ih h]

/-- A status-subresource update replaces only the stored object's
status. -/
theorem getGateway_putGatewayStatus_self (cl : Cluster) (g stored : Gateway)
    (h : getGateway cl g.key = some stored) (hk : stored.key = g.key) :
    getGateway (putGatewayStatus cl g) g.key =
      some { stored with status := g.status } := by
  have hk' : ({ stored with status := g.status } : Gateway).key = g.key := by
    simpa [Gateway.key] using hk
  simp only [putGatewayStatus, h]
  rw [← hk']
  exact getGateway_putGateway_self cl _

/-- A status-subresource update leaves other keys untouched. -/
theorem getGateway_putGatewayStatus_ne (cl : Cluster) (g : Gateway)
    (nn : NamespacedName)
    (hwf : ∀ stored, getGateway cl g.key = some stored → stored.key = g.key)
    (h : nn ≠ g.key) :
    getGateway (putGatewayStatus cl g) nn = getGateway cl nn := by
  rcases hs : getGateway cl g.key with _ | stored
  · simp [putGatewayStatus, hs]
  · simp only [putGatewayStatus, hs]
    apply getGateway_putGateway_ne
    have hk : ({ stored with status := g.status } : Gateway).key = g.key := by
      simpa [Gateway.key] using hwf stored hs
    rw [hk]
    exact h

/-- Persisting a Gateway preserves cluster well-formedness. -/
theorem wfCluster_putGateway (cl : Cluster) (g : Gateway)
    (hwf : wfCluster cl) : wfCluster (putGateway cl g) := by
  intro nn g' hg'
  by_cases h : nn = g.key
  · subst h
    rw [getGateway_putGateway_self cl g] at hg'
    have : g' = g := by simpa using hg'.symm
    simp [this]
  · rw [getGateway_putGateway_ne cl g nn h] at hg'
    exact hwf nn g' hg'

/-- A status-subresource update preserves cluster well-formedness. -/
theorem wfCluster_putGatewayStatus (cl : Cluster) (g : Gateway)
    (hwf : wfCluster cl) : wfCluster (putGatewayStatus cl g) := by
  rcases hs : getGateway cl g.key with _ | stored
  · simpa [putGatewayStatus, hs] using hwf
  · simp only [putGatewayStatus, hs]
    exact wfCluster_putGateway cl _ hwf

/-- The happy-path reconcile never touches the service inventory. -/
theorem services_putGatewayStatus (cl : Cluster) (g : Gateway) :
    (putGatewayStatus cl g).services = cl.services := by
  rcases hs : getGateway cl g.key with _ | stored
  · simp [putGatewayStatus, hs]
  · simp [putGatewayStatus, hs, putGateway]

/-- `ensureMCPServer` always succeeds: the guarded `Start` is only
invoked on a listener that is not running. -/
theorem ensureMCPServer_ok (servers : List (NamespacedName × MCPServer))
    (gw : Gateway) : (GatewayReconciler.ensureMCPServer servers gw).1 =
      Except.ok () := by
  by_cases h : (MCPServer.Configure
      ((assocLookup servers gw.key).getD MCPServer.NewServer) gw).started = true
  · simp [GatewayReconciler.ensureMCPServer, MCPServer.IsRunning, h]
  · simp [GatewayReconciler.ensureMCPServer, MCPServer.IsRunning,
      MCPServer.Start, h]

/-- Characterization of the reconciler's happy path: with the Gateway
present, not deleted and already carrying the finalizer, one invocation
publishes `mainGateway`'s status, stores `mainRegistry`, upserts the
server and tracked maps, and requeues after five minutes. -/
theorem Reconcile_main_path (cl : Cluster) (st : GatewayReconciler.RState)
    (req : NamespacedName) (now : Nat) (gw : Gateway)
    (hget : getGateway cl req = some gw)
    (hdel : gw.deletionTimestamp = none)
    (hfin : gatewayFinalizer ∈ gw.finalizers) :
    GatewayReconciler.Reconcile cl st req now =
      (GatewayReconciler.Outcome.success false 300,
       putGatewayStatus cl (mainGateway cl st gw now),
       { registry := mainRegistry cl st gw now,
         servers := (GatewayReconciler.ensureMCPServer st.servers gw).2,
         tracked := assocUpsert st.tracked gw.key gw },
       [GatewayReconciler.Action.statusUpdate req]) := by
  rcases hE : GatewayReconciler.ensureMCPServer st.servers gw with ⟨r, sv⟩
  have hr : r = Except.ok () := by
    have h := ensureMCPServer_ok st.servers gw
    rw [hE] at h
    simpa using h
  subst hr
  have hsv : (GatewayReconciler.ensureMCPServer st.servers gw).2 = sv := by
    rw [hE]
  simp only [GatewayReconciler.Reconcile, hget, hdel, hE, hsv]
  simp [hfin, mainGateway, mainRegistry]

/-! ### Claim C5 -/

/-! ### Claim C5 -/

/-- C5: for every service object carrying an annotations map but no
explicit endpoint annotation, `RegisterService` produces a registration
whose endpoint is exactly `/mcp/{namespace}/{name}`; when the
annotation is present, its value is used verbatim. -/
theorem registerService_endpoint_default_or_override
    (r : RegistryStore) (now : Nat) (svc : KService) (ty : ServiceType)
    (anns : List (String × String)) (h : svc.annotations = some anns) :
    (lookupStr anns "mcp.fetchfy.ai/endpoint" = none →
      ∃ m, (Registry.RegisterService r now svc ty).1 = Except.ok m ∧
        m.endpoint = "/mcp/" ++ svc.namesp ++ "/" ++ svc.name) ∧
    (∀ v, lookupStr anns "mcp.fetchfy.ai/endpoint" = some v →
      ∃ m, (Registry.RegisterService r now svc ty).1 = Except.ok m ∧
        m.endpoint = v) := by
  have hr := registerService_some r now svc ty anns h
  constructor
  · intro hnone
    refine ⟨regRecord now svc ty, by rw [hr], ?_⟩
    simp [regRecord, h, hnone]
  · intro v hv
    refine ⟨regRecord now svc ty, by rw [hr], ?_⟩
    simp [regRecord, h, hv]

/-- Witness for the C5 theorem at a concrete service without the
endpoint annotation. -/
theorem registerService_endpoint_default_or_override_witness :
    ∃ m, (Registry.RegisterService [] 0
        ⟨"svc1", "ns1", none, some [], "ClusterIP", [80]⟩ ServiceType.tool).1 =
      Except.ok m ∧ m.endpoint = "/mcp/ns1/svc1" := by
  obtain ⟨m, hm, he⟩ :=
    (registerService_endpoint_default_or_override [] 0
      ⟨"svc1", "ns1", none, some [], "ClusterIP", [80]⟩ ServiceType.tool [] rfl).1 rfl
  exact ⟨m, hm, he.trans (by decide)⟩

/-! ### Claim C3 -/

/-- C3 counterexample: this service carries an empty but non-nil
annotations map, so it lacks any annotation, yet `RegisterService`
accepts it (the code only rejects a nil map) — refuting the claim that
`Register` fails for every service lacking any annotation. -/
theorem registerService_empty_annotations_succeeds :
    (⟨"svc1", "ns1", none, some [], "ClusterIP", [80]⟩ : KService).annotations =
        some [] ∧
    ∃ m, (Registry.RegisterService [] 0
        ⟨"svc1", "ns1", none, some [], "ClusterIP", [80]⟩ ServiceType.tool).1 =
      Except.ok m :=
  ⟨rfl, _, rfl⟩

/-- C3 (amended): for every service whose annotations map is nil,
`RegisterService` fails with the has-no-annotations error and returns
the store it was given, unchanged (no partial insert). -/
theorem registerService_nil_annotations_fails
    (r : RegistryStore) (now : Nat) (svc : KService) (ty : ServiceType)
    (h : svc.annotations = none) :
    Registry.RegisterService r now svc ty =
      (Except.error ("service " ++ svc.namesp ++ "/" ++ svc.name ++
        " has no annotations"), r) := by
  simp [Registry.RegisterService, h]

/-- Witness for the amended C3 theorem at a concrete service with a nil
annotations map. -/
theorem registerService_nil_annotations_fails_witness :
    Registry.RegisterService [] 0
        ⟨"svc1", "ns1", none, none, "ClusterIP", [80]⟩ ServiceType.tool =
      (Except.error "service ns1/svc1 has no annotations", []) := by
  rw [registerService_nil_annotations_fails [] 0
    ⟨"svc1", "ns1", none, none, "ClusterIP", [80]⟩ ServiceType.tool rfl]
  rfl

/-! ### Claim C9 -/

/-- C9: once `Start` has succeeded on a listener, a second `Start`
without an intervening `Stop` fails with the already-started error and
leaves the listener state unchanged; `IsRunning` is true after the
first call and still true after the failed second call. -/
theorem server_double_start_fails
    (s : MCPServer) (h : s.started = false) :
    (MCPServer.Start s).1 = Except.ok () ∧
    MCPServer.IsRunning (MCPServer.Start s).2 = true ∧
    (MCPServer.Start (MCPServer.Start s).2).1 =
      Except.error "server already started" ∧
    (MCPServer.Start (MCPServer.Start s).2).2 = (MCPServer.Start s).2 ∧
    MCPServer.IsRunning (MCPServer.Start (MCPServer.Start s).2).2 = true := by
  simp [MCPServer.Start, MCPServer.IsRunning, h]

/-- Witness for the C9 theorem on a freshly created server. -/
theorem server_double_start_fails_witness :
    (MCPServer.Start MCPServer.NewServer).1 = Except.ok () ∧
    MCPServer.IsRunning (MCPServer.Start MCPServer.NewServer).2 = true ∧
    (MCPServer.Start (MCPServer.Start MCPServer.NewServer).2).1 =
      Except.error "server already started" ∧
    (MCPServer.Start (MCPServer.Start MCPServer.NewServer).2).2 =
      (MCPServer.Start MCPServer.NewServer).2 ∧
    MCPServer.IsRunning
      (MCPServer.Start (MCPServer.Start MCPServer.NewServer).2).2 = true :=
  server_double_start_fails MCPServer.NewServer rfl

/-! ### Claim C2 -/

/-- C2 counterexample: a Gateway whose selector matches only
`app=frontend` services and a registry holding a registration whose
backend service carries only `app=backend`; `UpdateRegistryStatus`
still publishes that registration onto the Gateway's status, so the
published list is not the selector-matching subset. -/
theorem updateRegistryStatus_ignores_selector_counterexample :
    let svcB : KService :=
      ⟨"b", "ns2", some [("app", "backend"), ("mcp-enabled", "true")],
        some [], "ClusterIP", [80]⟩
    let entry : MCPService :=
      ⟨"b", "ns2", .tool, "/mcp/ns2/b", .available, svcB, 5⟩
    let gw : Gateway :=
      ⟨"gw", "ns1", 1, none, [], ⟨8080, [("app", "frontend")], false, ""⟩,
        ⟨[], [], ""⟩⟩
    selectorMatches gw.spec.serviceSelector svcB = false ∧
    (Registry.UpdateRegistryStatus [(svcB.key, entry)] gw).status.mcpServices =
      [projInfo entry] := by
  constructor
  · rfl
  · rfl

/-- C2 (amended): at status-publish time the service list written onto a
Gateway's status is the full registry snapshot in status-summary form —
every registry entry is published, whether or not its backend service
matches that Gateway's label selector, and nothing else is. -/
theorem updateRegistryStatus_full_snapshot (r : RegistryStore) (gw : Gateway) :
    (Registry.UpdateRegistryStatus r gw).status.mcpServices =
        r.map (fun e => projInfo e.2) ∧
    (Registry.UpdateRegistryStatus r gw).status.mcpServices.length = r.length ∧
    ∀ e ∈ r, projInfo e.2 ∈ (Registry.UpdateRegistryStatus r gw).status.mcpServices := by
  refine ⟨rfl, by simp [Registry.UpdateRegistryStatus], ?_⟩
  intro e he
  have : projInfo e.2 ∈ r.map (fun e => projInfo e.2) :=
    List.mem_map_of_mem _ he
  simpa [Registry.UpdateRegistryStatus] using this

/-- The condition-update loop passes over a prefix containing no entry
of the updated type. -/
theorem updateGatewayCondition_passes_untyped
    (pre rest : List Condition) (t : String) (s : ConditionStatus)
    (rsn msg : String) (now : Nat) (gen : Int)
    (h : ∀ c ∈ pre, c.type ≠ t) :
    GatewayReconciler.updateGatewayCondition (pre ++ rest) t s rsn msg now gen =
      pre ++ GatewayReconciler.updateGatewayCondition rest t s rsn msg now gen := by
  induction pre with
  | nil => rfl
  | cons c0 pre' ih =>
      have hne : c0.type ≠ t := h c0 (by simp)
      simp only [List.cons_append, GatewayReconciler.updateGatewayCondition,
        if_neg hne, List.append_eq]
      rw [ih fun c hc => h c (by simp [hc])]

/-! ### Claim C6 -/

/-- C6: for a condition list with pairwise-distinct types, updating a
condition is a no-op when the entry of that type has equal status,
reason and message; otherwise that entry is replaced in place at its
position; when the type is absent a new entry is appended; and every
written entry carries the fresh transition time `now` and the current
generation `gen`. -/
theorem updateGatewayCondition_semantics
    (conds : List Condition) (t : String) (s : ConditionStatus)
    (rsn msg : String) (now : Nat) (gen : Int)
    (hnd : (conds.map Condition.type).Nodup) :
    (∀ c, findCond conds t = some c →
      c.status = s → c.reason = rsn → c.message = msg →
      GatewayReconciler.updateGatewayCondition conds t s rsn msg now gen = conds) ∧
    (∀ pre c suf, conds = pre ++ c :: suf → c.type = t →
      ¬(c.status = s ∧ c.reason = rsn ∧ c.message = msg) →
      GatewayReconciler.updateGatewayCondition conds t s rsn msg now gen =
        pre ++ (⟨t, s, now, rsn, msg, gen⟩ : Condition) :: suf) ∧
    (t ∉ conds.map Condition.type →
      GatewayReconciler.updateGatewayCondition conds t s rsn msg now gen =
        conds ++ [(⟨t, s, now, rsn, msg, gen⟩ : Condition)]) := by
  refine ⟨?_, ?_, ?_⟩
  · clear hnd
    induction conds with
    | nil => intro c hc; simp [findCond] at hc
    | cons c0 rest ih =>
        intro c hc h1 h2 h3
        by_cases h0 : c0.type = t
        · have hc0 : c = c0 := by
            simp [findCond, List.find?, h0] at hc
            exact hc.symm
          subst hc0
          simp [GatewayReconciler.updateGatewayCondition, h0, h1, h2, h3]
        · have hc' : findCond rest t = some c := by
            simpa [findCond, List.find?, h0] using hc
          simp only [GatewayReconciler.updateGatewayCondition, if_neg h0]
          rw [ih c hc' h1 h2 h3]
  · intro pre c suf hsplit ht hdiff
    subst hsplit
    have hpre : ∀ p ∈ pre, p.type ≠ t := by
      intro p hp hp'
      have : t ∈ pre.map Condition.type := by
        exact hp' ▸ List.mem_map_of_mem _ hp
      have hmem : t ∈ (c :: suf).map Condition.type := by simp [ht]
      rw [List.map_append, List.nodup_append] at hnd
      exact hnd.2.2 this hmem
    rw [updateGatewayCondition_passes_untyped pre (c :: suf) t s rsn msg now gen hpre]
    simp [GatewayReconciler.updateGatewayCondition, ht, hdiff,
      fun h1 h2 h3 => hdiff ⟨h1, h2, h3⟩]
  · clear hnd
    induction conds with
    | nil => intro _; rfl
    | cons c0 rest ih =>
        intro habs
        have h0 : c0.type ≠ t := by
          intro h
          exact habs (by simp [h])
        simp only [GatewayReconciler.updateGatewayCondition, if_neg h0]
        rw [ih (by intro h; exact habs (by simp [h]))]
        simp

/-- Witness for the C6 theorem: updating an already-identical `Ready`
condition is a no-op. -/
theorem updateGatewayCondition_semantics_witness :
    GatewayReconciler.updateGatewayCondition
        [⟨"Ready", .condTrue, 0, "GatewayReady", "m", 1⟩] "Ready" .condTrue
        "GatewayReady" "m" 7 2 =
      [⟨"Ready", .condTrue, 0, "GatewayReady", "m", 1⟩] :=
  (updateGatewayCondition_semantics
      [⟨"Ready", .condTrue, 0, "GatewayReady", "m", 1⟩] "Ready" .condTrue
      "GatewayReady" "m" 7 2 (by simp)).1
    ⟨"Ready", .condTrue, 0, "GatewayReady", "m", 1⟩ rfl rfl rfl rfl

/-! ### Claim C10 -/

/-- C10: for every service accepted by `RegisterService` the assigned
availability is `Available` exactly when the service's type is
ClusterIP and its port list is non-empty, and `Pending` in every other
case; and no sequence of Registry operations ever produces an entry
with the `Unavailable` status, even though the status enumeration
includes it. -/
theorem registerService_status_classification :
    (∀ (r : RegistryStore) (now : Nat) (svc : KService) (ty : ServiceType)
        (m : MCPService),
      (Registry.RegisterService r now svc ty).1 = Except.ok m →
      (m.status = ServiceStatus.available ↔
        svc.specType = "ClusterIP" ∧ svc.ports ≠ []) ∧
      (m.status = ServiceStatus.pending ↔
        ¬(svc.specType = "ClusterIP" ∧ svc.ports ≠ []))) ∧
    ∀ (ops : List RegOp) (e : NamespacedName × MCPService),
      e ∈ applyRegOps ops → e.2.status ≠ ServiceStatus.unavailable := by
  constructor
  · intro r now svc ty m hok
    rcases hann : svc.annotations with _ | anns
    · rw [registerService_nil_annotations_fails r now svc ty hann] at hok
      exact absurd hok (by simp)
    · rw [registerService_some r now svc ty anns hann] at hok
      have hm : m = regRecord now svc ty := by
        simpa using hok.symm
      subst hm
      have hst : (regRecord now svc ty).status =
          if svc.specType = "ClusterIP" ∧ 0 < svc.ports.length then
            ServiceStatus.available else ServiceStatus.pending := rfl
      rw [hst]
      by_cases hc : svc.specType = "ClusterIP" ∧ 0 < svc.ports.length
      · rw [if_pos hc]
        have hrhs : svc.specType = "ClusterIP" ∧ svc.ports ≠ [] :=
          ⟨hc.1, List.length_pos.mp hc.2⟩
        exact ⟨iff_of_true rfl hrhs,
          iff_of_false (by decide) (not_not_intro hrhs)⟩
      · rw [if_neg hc]
        have hrhs : ¬(svc.specType = "ClusterIP" ∧ svc.ports ≠ []) := by
          intro h
          exact hc ⟨h.1, List.length_pos.mpr h.2⟩
        exact ⟨iff_of_false (by decide) hrhs, iff_of_true rfl hrhs⟩
  · suffices h : ∀ (ops : List RegOp) (r : RegistryStore),
        (∀ e ∈ r, e.2.status ≠ ServiceStatus.unavailable) →
        ∀ e ∈ ops.foldl applyRegOp r, e.2.status ≠ ServiceStatus.unavailable by
      intro ops e he
      exact h ops [] (by simp) e he
    intro ops
    induction ops with
    | nil => intro r hr e he; exact hr e he
    | cons op rest ih =>
        intro r hr e he
        refine ih (applyRegOp r op) ?_ e he
        intro e' he'
        match op with
        | .register now svc ty =>
            rcases hann : svc.annotations with _ | anns
            · rw [applyRegOp, registerService_nil_annotations_fails r now svc ty hann] at he'
              exact hr e' he'
            · rw [applyRegOp, registerService_some r now svc ty anns hann] at he'
              rcases mem_assocUpsert he' with h' | h'
              · exact hr e' h'
              · subst h'
                show (regRecord now svc ty).status ≠ ServiceStatus.unavailable
                have hst : (regRecord now svc ty).status =
                    if svc.specType = "ClusterIP" ∧ 0 < svc.ports.length then
                      ServiceStatus.available else ServiceStatus.pending := rfl
                rw [hst]
                split <;> decide
        | .deregister nn =>
            rw [applyRegOp, Registry.DeregisterService] at he'
            rcases hl : assocLookup r nn with _ | v
            · rw [hl] at he'
              exact hr e' he'
            · rw [hl] at he'
              exact hr e' (mem_assocErase he')

/-- Witness for the C10 theorem: a ClusterIP service with one port is
classified `Available`. -/
theorem registerService_status_classification_witness :
    (regRecord 0 ⟨"svc1", "ns1", none, some [], "ClusterIP", [80]⟩
        ServiceType.tool).status = ServiceStatus.available :=
  ((registerService_status_classification.1 [] 0
      ⟨"svc1", "ns1", none, some [], "ClusterIP", [80]⟩ ServiceType.tool
      (regRecord 0 ⟨"svc1", "ns1", none, some [], "ClusterIP", [80]⟩
        ServiceType.tool) rfl).1).mpr ⟨rfl, by decide⟩

/-! ### Claim C1 -/

/-- C1 counterexample: a backend-service event for a service that is
fetched and enablement-labeled but has a nil annotations map.  The
Registry's registration fails, and the Watcher's reconciliation of the
event returns that error to the dispatcher rather than completing
successfully. -/
theorem watcher_reconcile_registration_error_counterexample :
    getService ⟨[⟨"s", "n", some [("mcp-enabled", "true")], none,
        "ClusterIP", [80]⟩], []⟩ ⟨"s", "n"⟩ =
      some ⟨"s", "n", some [("mcp-enabled", "true")], none, "ClusterIP", [80]⟩ ∧
    IsMCPEnabledService
      ⟨"s", "n", some [("mcp-enabled", "true")], none, "ClusterIP", [80]⟩ = true ∧
    (Registry.RegisterService [] 0
        ⟨"s", "n", some [("mcp-enabled", "true")], none, "ClusterIP", [80]⟩
        (serviceTypeOf
          ⟨"s", "n", some [("mcp-enabled", "true")], none, "ClusterIP", [80]⟩)).1 =
      Except.error "service n/s has no annotations" ∧
    (ServiceWatcher.Reconcile
        ⟨[⟨"s", "n", some [("mcp-enabled", "true")], none, "ClusterIP", [80]⟩], []⟩
        [] [] ⟨"s", "n"⟩ 0).1 =
      Except.error "service n/s has no annotations" :=
  ⟨rfl, rfl, rfl, rfl⟩

/-- C1 (amended): for every backend-service event where the service is
fetched, is enablement-labeled, and registration fails, the Watcher's
reconciliation of the triggering event fails too: the error is logged
and returned to the dispatcher, the registry is unchanged and no status
refresh is pushed to the tracked Gateways. -/
theorem watcher_reconcile_registration_error_returned
    (cl : Cluster) (reg : RegistryStore)
    (tracked : List (NamespacedName × Gateway)) (req : NamespacedName)
    (now : Nat) (svc : KService) (e : String)
    (hget : getService cl req = some svc)
    (hen : IsMCPEnabledService svc = true)
    (herr : (Registry.RegisterService reg now svc (serviceTypeOf svc)).1 =
      Except.error e) :
    ServiceWatcher.Reconcile cl reg tracked req now = (Except.error e, reg, cl) := by
  rcases hann : svc.annotations with _ | anns
  · have hrs := registerService_nil_annotations_fails reg now svc
      (serviceTypeOf svc) hann
    have he : ("service " ++ svc.namesp ++ "/" ++ svc.name ++
        " has no annotations") = e := by
      rw [hrs] at herr
      simpa using herr
    simp only [ServiceWatcher.Reconcile, hget, hen, hrs]
    simp [he]
  · exfalso
    rw [registerService_some reg now svc (serviceTypeOf svc) anns hann] at herr
    exact absurd herr (by simp)

/-- Witness for the amended C1 theorem at the concrete failing event. -/
theorem watcher_reconcile_registration_error_returned_witness :
    ServiceWatcher.Reconcile
        ⟨[⟨"s", "n", some [("mcp-enabled", "true")], none, "ClusterIP", [80]⟩], []⟩
        [] [] ⟨"s", "n"⟩ 0 =
      (Except.error "service n/s has no annotations", [],
        ⟨[⟨"s", "n", some [("mcp-enabled", "true")], none, "ClusterIP", [80]⟩], []⟩) :=
  watcher_reconcile_registration_error_returned
    ⟨[⟨"s", "n", some [("mcp-enabled", "true")], none, "ClusterIP", [80]⟩], []⟩
    [] [] ⟨"s", "n"⟩ 0
    ⟨"s", "n", some [("mcp-enabled", "true")], none, "ClusterIP", [80]⟩
    "service n/s has no annotations" rfl rfl rfl

/-- Registering a sequence of services with fresh, pairwise-distinct
identities and non-nil annotation maps appends exactly their keys to
the store. -/
theorem registerSeq_keys (now : Nat) :
    ∀ (svcs : List (KService × ServiceType)) (r : RegistryStore),
    (∀ p ∈ svcs, p.1.key ∉ assocKeys r) →
    (svcs.map fun p => p.1.key).Nodup →
    (∀ p ∈ svcs, p.1.annotations ≠ none) →
    assocKeys (registerSeq r now svcs) =
      assocKeys r ++ svcs.map fun p => p.1.key := by
  intro svcs
  induction svcs with
  | nil => intro r _ _ _; simp [registerSeq]
  | cons p rest ih =>
      intro r hfresh hnd hann
      rcases hpa : p.1.annotations with _ | anns
      · exact absurd hpa (hann p (by simp))
      · have hstep : registerSeq r now (p :: rest) =
            registerSeq (assocUpsert r p.1.key (regRecord now p.1 p.2)) now rest := by
          simp [registerSeq, registerService_some r now p.1 p.2 anns hpa]
        have hkeys : assocKeys (assocUpsert r p.1.key (regRecord now p.1 p.2)) =
            assocKeys r ++ [p.1.key] := by
          rw [assocKeys_upsert]
          simp [hfresh p (by simp)]
        have hfresh' : ∀ q ∈ rest,
            q.1.key ∉ assocKeys (assocUpsert r p.1.key (regRecord now p.1 p.2)) := by
          intro q hq
          rw [hkeys]
          simp only [List.mem_append, List.mem_singleton]
          rintro (h | h)
          · exact hfresh q (by simp [hq]) h
          · have : p.1.key ∈ rest.map fun p => p.1.key := by
              rw [← h]
              exact List.mem_map_of_mem _ hq
            simp only [List.map_cons, List.nodup_cons] at hnd
            exact hnd.1 this
        rw [hstep, ih _ hfresh' (by simpa using hnd.of_cons)
          (fun q hq => hann q (by simp [hq])), hkeys]
        simp

/-! ### Claim C8 -/

/-- C8: registering N services with distinct identities into an empty
Registry and projecting onto a Gateway status yields exactly N entries
whose fields are the registry snapshot in summary form; deregistering
one of them and projecting again yields exactly N−1 entries. -/
theorem register_project_roundtrip
    (now : Nat) (svcs : List (KService × ServiceType)) (gw : Gateway)
    (hnd : (svcs.map fun p => p.1.key).Nodup)
    (hann : ∀ p ∈ svcs, p.1.annotations ≠ none) :
    (Registry.UpdateRegistryStatus (registerSeq [] now svcs) gw).status.mcpServices =
        (registerSeq [] now svcs).map (fun e => projInfo e.2) ∧
    (Registry.UpdateRegistryStatus
        (registerSeq [] now svcs) gw).status.mcpServices.length = svcs.length ∧
    ∀ p ∈ svcs,
      (Registry.UpdateRegistryStatus
          (Registry.DeregisterService (registerSeq [] now svcs) p.1.key).2
          gw).status.mcpServices.length = svcs.length - 1 := by
  have hkeys : assocKeys (registerSeq [] now svcs) = svcs.map fun p => p.1.key := by
    simpa using registerSeq_keys now svcs [] (by simp [assocKeys]) hnd hann
  have hlen : (registerSeq [] now svcs).length = svcs.length := by
    have := congrArg List.length hkeys
    simpa [assocKeys] using this
  refine ⟨rfl, ?_, ?_⟩
  · simp [Registry.UpdateRegistryStatus, hlen]
  · intro p hp
    have hmem : p.1.key ∈ assocKeys (registerSeq [] now svcs) := by
      rw [hkeys]
      exact List.mem_map_of_mem _ hp
    obtain ⟨v, hv⟩ := assocLookup_mem hmem
    have herase := assocErase_length hmem
    simp only [Registry.DeregisterService, hv]
    simp only [Registry.UpdateRegistryStatus]
    simp only [List.length_map]
    omega

/-- Witness for the C8 theorem with two concrete services. -/
theorem register_project_roundtrip_witness :
    (Registry.UpdateRegistryStatus
        (registerSeq [] 0
          [(⟨"a", "n", none, some [], "ClusterIP", [80]⟩, ServiceType.tool),
           (⟨"b", "n", none, some [], "ClusterIP", [80]⟩, ServiceType.agent)])
        ⟨"gw", "ns", 1, none, [], ⟨8080, [], false, ""⟩,
          ⟨[], [], ""⟩⟩).status.mcpServices.length = 2 :=
  (register_project_roundtrip 0
    [(⟨"a", "n", none, some [], "ClusterIP", [80]⟩, ServiceType.tool),
     (⟨"b", "n", none, some [], "ClusterIP", [80]⟩, ServiceType.agent)]
    ⟨"gw", "ns", 1, none, [], ⟨8080, [], false, ""⟩, ⟨[], [], ""⟩⟩
    (by decide) (by decide)).2.1

/-! ### Lemmas for the reconcile idempotence analysis -/

section UpsertListLemmas

variable {β : Type}

theorem upsertList_cons (m : List (NamespacedName × β)) (p : NamespacedName × β)
    (entries : List (NamespacedName × β)) :
    upsertList m (p :: entries) = upsertList (assocUpsert m p.1 p.2) entries := rfl

theorem assocLookup_upsertList_of_not_mem
    (entries : List (NamespacedName × β)) :
    ∀ (m : List (NamespacedName × β)) (k : NamespacedName),
    (∀ p ∈ entries, p.1 ≠ k) →
    assocLookup (upsertList m entries) k = assocLookup m k := by
  induction entries with
  | nil => intro m k _; rfl
  | cons p rest ih =>
      intro m k h
      rw [upsertList_cons, ih _ k fun q hq => h q (by simp [hq])]
      exact assocLookup_upsert_ne m p.1 k p.2 (Ne.symm (h p (by simp)))

theorem upsertList_idem (entries : List (NamespacedName × β)) :
    ∀ (m : List (NamespacedName × β)),
    ((entries.map Prod.fst).Nodup) →
    upsertList (upsertList m entries) entries = upsertList m entries := by
  induction entries with
  | nil => intro m _; rfl
  | cons p rest ih =>
      intro m hnd
      simp only [List.map_cons, List.nodup_cons] at hnd
      have hk : ∀ q ∈ rest, q.1 ≠ p.1 := by
        intro q hq hqe
        exact hnd.1 (hqe ▸ List.mem_map_of_mem _ hq)
      rw [upsertList_cons, upsertList_cons]
      have hlook : assocLookup (upsertList (assocUpsert m p.1 p.2) rest) p.1 =
          some p.2 := by
        rw [assocLookup_upsertList_of_not_mem rest _ p.1 hk]
        exact assocLookup_upsert_self m p.1 p.2
      rw [assocUpsert_lookup_self _ _ _ hlook]
      exact ih _ hnd.2

end UpsertListLemmas

/-- Forgetting timestamps commutes with a single upsert. -/
theorem stripStore_upsert (r : RegistryStore) (k : NamespacedName)
    (v : MCPService) :
    stripStore (assocUpsert r k v) = assocUpsert (stripStore r) k v.core := by
  induction r with
  | nil => rfl
  | cons e rest ih =>
      obtain ⟨k0, w⟩ := e
      by_cases h0 : k0 = k
      · simp [assocUpsert, stripStore, h0]
      · simp only [stripStore, List.map_cons, assocUpsert, if_neg h0,
          List.cons.injEq, true_and]
        simpa [stripStore] using ih

/-- Forgetting timestamps turns the reconciler's registration loop into
the plain upsert sequence `effEntries`, which does not depend on the
wall clock. -/
theorem stripStore_registerMatching (l : List KService) :
    ∀ (r : RegistryStore) (now : Nat),
    stripStore (GatewayReconciler.registerMatching r now l) =
      upsertList (stripStore r) (effEntries l) := by
  induction l with
  | nil => intro r now; rfl
  | cons svc rest ih =>
      intro r now
      by_cases hen : IsMCPEnabledService svc = true
      · rcases hann : svc.annotations with _ | anns
        · have hstep : GatewayReconciler.registerMatching r now (svc :: rest) =
              GatewayReconciler.registerMatching r now rest := by
            simp [GatewayReconciler.registerMatching, hen,
              registerService_nil_annotations_fails r now svc _ hann]
          have heff : effEntries (svc :: rest) = effEntries rest := by
            simp [effEntries, hen, hann]
          rw [hstep, heff, ih]
        · have hstep : GatewayReconciler.registerMatching r now (svc :: rest) =
              GatewayReconciler.registerMatching
                (assocUpsert r svc.key (regRecord now svc (serviceTypeOf svc)))
                now rest := by
            simp [GatewayReconciler.registerMatching, hen,
              registerService_some r now svc (serviceTypeOf svc) anns hann]
          have heff : effEntries (svc :: rest) =
              (svc.key, (regRecord 0 svc (serviceTypeOf svc)).core) ::
                effEntries rest := by
            simp [effEntries, hen, hann]
          have hcore : (regRecord now svc (serviceTypeOf svc)).core =
              (regRecord 0 svc (serviceTypeOf svc)).core := rfl
          rw [hstep, heff, ih, upsertList_cons, stripStore_upsert, hcore]
      · have hen' : IsMCPEnabledService svc = false := by
          simpa using hen
        have hstep : GatewayReconciler.registerMatching r now (svc :: rest) =
            GatewayReconciler.registerMatching r now rest := by
          simp [GatewayReconciler.registerMatching, hen']
        have heff : effEntries (svc :: rest) = effEntries rest := by
          simp [effEntries, hen']
        rw [hstep, heff, ih]

/-- Forgetting timestamps preserves the key sequence. -/
theorem assocKeys_stripStore (r : RegistryStore) :
    assocKeys (stripStore r) = assocKeys r := by
  simp [assocKeys, stripStore]

/-- The keys of `effEntries` are drawn from the service list by
filtering, hence distinct when the service identities are. -/
theorem effEntries_keys_nodup (l : List KService)
    (h : (l.map KService.key).Nodup) :
    ((effEntries l).map Prod.fst).Nodup := by
  have hsub : (effEntries l).map Prod.fst =
      (l.filter fun svc =>
        IsMCPEnabledService svc && !(svc.annotations = none : Bool)).map
        KService.key := by
    simp [effEntries, List.map_map]
  rw [hsub]
  exact h.sublist (List.Sublist.map _ (List.filter_sublist l))

/-- The registration loop preserves distinctness of the store's keys. -/
theorem registerMatching_keys_nodup (l : List KService) :
    ∀ (r : RegistryStore) (now : Nat), (assocKeys r).Nodup →
    (assocKeys (GatewayReconciler.registerMatching r now l)).Nodup := by
  induction l with
  | nil => intro r now h; exact h
  | cons svc rest ih =>
      intro r now h
      by_cases hen : IsMCPEnabledService svc = true
      · rcases hann : svc.annotations with _ | anns
        · have hstep : GatewayReconciler.registerMatching r now (svc :: rest) =
              GatewayReconciler.registerMatching r now rest := by
            simp [GatewayReconciler.registerMatching, hen,
              registerService_nil_annotations_fails r now svc _ hann]
          rw [hstep]
          exact ih r now h
        · have hstep : GatewayReconciler.registerMatching r now (svc :: rest) =
              GatewayReconciler.registerMatching
                (assocUpsert r svc.key (regRecord now svc (serviceTypeOf svc)))
                now rest := by
            simp [GatewayReconciler.registerMatching, hen,
              registerService_some r now svc (serviceTypeOf svc) anns hann]
          rw [hstep]
          exact ih _ now (assocKeys_upsert_nodup r _ _ h)
      · have hen' : IsMCPEnabledService svc = false := by simpa using hen
        have hstep : GatewayReconciler.registerMatching r now (svc :: rest) =
            GatewayReconciler.registerMatching r now rest := by
          simp [GatewayReconciler.registerMatching, hen']
        rw [hstep]
        exact ih r now h

/-- The registration loop preserves store well-formedness. -/
theorem registerMatching_wfStore (l : List KService) :
    ∀ (r : RegistryStore) (now : Nat), wfStore r →
    wfStore (GatewayReconciler.registerMatching r now l) := by
  induction l with
  | nil => intro r now h; exact h
  | cons svc rest ih =>
      intro r now h
      by_cases hen : IsMCPEnabledService svc = true
      · rcases hann : svc.annotations with _ | anns
        · have hstep : GatewayReconciler.registerMatching r now (svc :: rest) =
              GatewayReconciler.registerMatching r now rest := by
            simp [GatewayReconciler.registerMatching, hen,
              registerService_nil_annotations_fails r now svc _ hann]
          rw [hstep]
          exact ih r now h
        · have hstep : GatewayReconciler.registerMatching r now (svc :: rest) =
              GatewayReconciler.registerMatching
                (assocUpsert r svc.key (regRecord now svc (serviceTypeOf svc)))
                now rest := by
            simp [GatewayReconciler.registerMatching, hen,
              registerService_some r now svc (serviceTypeOf svc) anns hann]
          rw [hstep]
          refine ih _ now ?_
          intro e he
          rcases mem_assocUpsert he with h' | h'
          · exact h e h'
          · subst h'
            exact ⟨rfl, rfl⟩
      · have hen' : IsMCPEnabledService svc = false := by simpa using hen
        have hstep : GatewayReconciler.registerMatching r now (svc :: rest) =
            GatewayReconciler.registerMatching r now rest := by
          simp [GatewayReconciler.registerMatching, hen']
        rw [hstep]
        exact ih r now h

/-- After a condition update, the first entry of the updated type has
exactly the written status, reason and message. -/
theorem findCond_update_same (conds : List Condition) (t : String)
    (s : ConditionStatus) (rsn msg : String) (now : Nat) (gen : Int) :
    ∃ c, findCond
        (GatewayReconciler.updateGatewayCondition conds t s rsn msg now gen) t =
        some c ∧ c.status = s ∧ c.reason = rsn ∧ c.message = msg := by
  induction conds with
  | nil =>
      refine ⟨⟨t, s, now, rsn, msg, gen⟩, ?_, rfl, rfl, rfl⟩
      simp [GatewayReconciler.updateGatewayCondition, findCond, List.find?]
  | cons c0 rest ih =>
      by_cases h0 : c0.type = t
      · by_cases heq : c0.status = s ∧ c0.reason = rsn ∧ c0.message = msg
        · refine ⟨c0, ?_, heq.1, heq.2.1, heq.2.2⟩
          simp [GatewayReconciler.updateGatewayCondition, h0, heq.1,
            heq.2.1, heq.2.2, findCond, List.find?]
        · refine ⟨⟨t, s, now, rsn, msg, gen⟩, ?_, rfl, rfl, rfl⟩
          simp [GatewayReconciler.updateGatewayCondition, h0, if_neg heq,
            findCond, List.find?]
      · obtain ⟨c, hc, h1, h2, h3⟩ := ih
        refine ⟨c, ?_, h1, h2, h3⟩
        simpa [GatewayReconciler.updateGatewayCondition, h0, findCond,
          List.find?] using hc

/-- A condition update of one type does not move or change the first
entry of a different type. -/
theorem findCond_update_other (conds : List Condition) (t t' : String)
    (s : ConditionStatus) (rsn msg : String) (now : Nat) (gen : Int)
    (hne : t ≠ t') :
    findCond
        (GatewayReconciler.updateGatewayCondition conds t' s rsn msg now gen) t =
      findCond conds t := by
  induction conds with
  | nil => simp [GatewayReconciler.updateGatewayCondition, findCond, hne,
      Ne.symm hne]
  | cons c0 rest ih =>
      by_cases h0 : c0.type = t'
      · by_cases heq : c0.status = s ∧ c0.reason = rsn ∧ c0.message = msg
        · simp [GatewayReconciler.updateGatewayCondition, h0, heq.1, heq.2.1,
            heq.2.2]
        · have h0t : ¬c0.type = t := by rw [h0]; exact Ne.symm hne
          simp [GatewayReconciler.updateGatewayCondition, h0, if_neg heq,
            findCond, List.find?, h0t, Ne.symm hne]
      · by_cases h0t : c0.type = t
        · simp [GatewayReconciler.updateGatewayCondition, h0, findCond,
            List.find?, h0t, hne]
        · simpa [GatewayReconciler.updateGatewayCondition, h0, findCond,
            List.find?, h0t] using ih

/-- Updating a condition whose first entry of that type already has the
written status, reason and message is a no-op. -/
theorem updateGatewayCondition_noop (conds : List Condition) (t : String)
    (s : ConditionStatus) (rsn msg : String) (now : Nat) (gen : Int)
    (c : Condition) (hf : findCond conds t = some c)
    (h1 : c.status = s) (h2 : c.reason = rsn) (h3 : c.message = msg) :
    GatewayReconciler.updateGatewayCondition conds t s rsn msg now gen =
      conds := by
  induction conds with
  | nil => simp [findCond] at hf
  | cons c0 rest ih =>
      by_cases h0 : c0.type = t
      · have hc0 : c = c0 := by
          simp [findCond, List.find?, h0] at hf
          exact hf.symm
        subst hc0
        simp [GatewayReconciler.updateGatewayCondition, h0, h1, h2, h3]
      · have hf' : findCond rest t = some c := by
          simpa [findCond, List.find?, h0] using hf
        simp only [GatewayReconciler.updateGatewayCondition, if_neg h0]
        rw [ih hf']

/-- The timestamp-free published list is determined by the
timestamp-free store. -/
theorem proj_stripInfo (r : RegistryStore) :
    (r.map fun e => projInfo e.2).map stripInfo =
      (stripStore r).map fun e => coreInfo e.2 := by
  simp only [stripStore, List.map_map]
  rfl

/-- With a well-formed store, the published name/namespace pairs are
the store's keys. -/
theorem proj_name_pairs (r : RegistryStore) (hwf : wfStore r) :
    (r.map fun e => projInfo e.2).map (fun i => (i.name, i.namesp)) =
      (assocKeys r).map fun k => (k.name, k.namesp) := by
  simp only [assocKeys, List.map_map]
  refine List.map_congr_left ?_
  intro e he
  obtain ⟨h1, h2⟩ := hwf e he
  simp [projInfo, h1, h2]

/-- The status the happy path publishes, in explicit form. -/
theorem mainGateway_status (cl : Cluster) (st : GatewayReconciler.RState)
    (gw : Gateway) (now : Nat) :
    (mainGateway cl st gw now).status =
      { conditions :=
          GatewayReconciler.updateGatewayCondition
            (GatewayReconciler.updateGatewayCondition gw.status.conditions
              "Ready" .condTrue "GatewayReady"
              ("Gateway is ready with " ++
                toString (mainRegistry cl st gw now).length ++ " services")
              now gw.generation)
            "Available" .condTrue "GatewayConfigured" "Gateway is available"
            now gw.generation,
        mcpServices := (mainRegistry cl st gw now).map fun e => projInfo e.2,
        address := ":" ++ toString gw.spec.mcpPort } := by
  simp [mainGateway, Registry.UpdateRegistryStatus]

/-- Re-issuing the `Ready` and `Available` condition updates with the
same status, reason and message is a no-op, whatever the new timestamp
and generation stamps would have been. -/
theorem readyAvailable_conditions_stable (X : List Condition) (m : String)
    (t1 t2 : Nat) (g1 g2 : Int) :
    GatewayReconciler.updateGatewayCondition
      (GatewayReconciler.updateGatewayCondition
        (GatewayReconciler.updateGatewayCondition
          (GatewayReconciler.updateGatewayCondition X
            "Ready" .condTrue "GatewayReady" m t1 g1)
          "Available" .condTrue "GatewayConfigured" "Gateway is available" t1 g1)
        "Ready" .condTrue "GatewayReady" m t2 g2)
      "Available" .condTrue "GatewayConfigured" "Gateway is available" t2 g2 =
    GatewayReconciler.updateGatewayCondition
      (GatewayReconciler.updateGatewayCondition X
        "Ready" .condTrue "GatewayReady" m t1 g1)
      "Available" .condTrue "GatewayConfigured" "Gateway is available" t1 g1 := by
  obtain ⟨cR, hcR, hR1, hR2, hR3⟩ :=
    findCond_update_same X "Ready" .condTrue "GatewayReady" m t1 g1
  have hfR : findCond
      (GatewayReconciler.updateGatewayCondition
        (GatewayReconciler.updateGatewayCondition X
          "Ready" .condTrue "GatewayReady" m t1 g1)
        "Available" .condTrue "GatewayConfigured" "Gateway is available" t1 g1)
      "Ready" = some cR := by
    rw [findCond_update_other _ "Ready" "Available" _ _ _ _ _ (by decide)]
    exact hcR
  rw [updateGatewayCondition_noop _ "Ready" .condTrue "GatewayReady" m t2 g2
    cR hfR hR1 hR2 hR3]
  obtain ⟨cA, hcA, hA1, hA2, hA3⟩ := findCond_update_same
    (GatewayReconciler.updateGatewayCondition X
      "Ready" .condTrue "GatewayReady" m t1 g1)
    "Available" .condTrue "GatewayConfigured" "Gateway is available" t1 g1
  exact updateGatewayCondition_noop _ "Available" .condTrue "GatewayConfigured"
    "Gateway is available" t2 g2 cA hcA hA1 hA2 hA3

/-- The name/namespace pair determines the identity key. -/
theorem nn_pair_injective :
    Function.Injective fun k : NamespacedName => (k.name, k.namesp) := by
  intro a b h
  cases a
  cases b
  simpa [NamespacedName.mk.injEq] using h

/-- Re-running the happy-path computation on the previously published
Gateway, over an unchanged service inventory and the registry the first
run produced, reproduces the published conditions, address, and service
list up to timestamps. -/
theorem mainGateway_twice (cl cl' : Cluster) (st st' : GatewayReconciler.RState)
    (gw : Gateway) (t1 t2 : Nat)
    (hsvc' : cl'.services = cl.services)
    (hreg' : st'.registry = mainRegistry cl st gw t1)
    (hnd : (cl.services.map KService.key).Nodup) :
    (mainGateway cl' st' { gw with status := (mainGateway cl st gw t1).status }
        t2).status.conditions = (mainGateway cl st gw t1).status.conditions ∧
    (mainGateway cl' st' { gw with status := (mainGateway cl st gw t1).status }
        t2).status.address = (mainGateway cl st gw t1).status.address ∧
    (mainGateway cl' st' { gw with status := (mainGateway cl st gw t1).status }
        t2).status.mcpServices.map stripInfo =
      (mainGateway cl st gw t1).status.mcpServices.map stripInfo := by
  have hR2 : mainRegistry cl' st'
      { gw with status := (mainGateway cl st gw t1).status } t2 =
      GatewayReconciler.registerMatching (mainRegistry cl st gw t1) t2
        (cl.services.filter (selectorMatches gw.spec.serviceSelector)) := by
    simp [mainRegistry, hsvc', hreg']
  have hE : ((effEntries
      (cl.services.filter (selectorMatches gw.spec.serviceSelector))).map
        Prod.fst).Nodup :=
    effEntries_keys_nodup _ (hnd.sublist (List.Sublist.map _ (List.filter_sublist _)))
  have hR1eq : mainRegistry cl st gw t1 =
      GatewayReconciler.registerMatching st.registry t1
        (cl.services.filter (selectorMatches gw.spec.serviceSelector)) := rfl
  have hstrip : stripStore (GatewayReconciler.registerMatching
      (mainRegistry cl st gw t1) t2
      (cl.services.filter (selectorMatches gw.spec.serviceSelector))) =
      stripStore (mainRegistry cl st gw t1) := by
    rw [stripStore_registerMatching _ (mainRegistry cl st gw t1) t2]
    rw [hR1eq, stripStore_registerMatching _ st.registry t1]
    exact upsertList_idem _ _ hE
  have hlen : (GatewayReconciler.registerMatching (mainRegistry cl st gw t1) t2
      (cl.services.filter (selectorMatches gw.spec.serviceSelector))).length =
      (mainRegistry cl st gw t1).length := by
    have h := congrArg List.length hstrip
    simpa [stripStore] using h
  refine ⟨?_, ?_, ?_⟩
  · rw [mainGateway_status cl' st' _ t2]
    dsimp only
    rw [hR2, hlen]
    rw [mainGateway_status cl st gw t1]
    dsimp only
    exact readyAvailable_conditions_stable gw.status.conditions _ t1 t2
      gw.generation gw.generation
  · rw [mainGateway_status cl' st' _ t2, mainGateway_status cl st gw t1]
  · rw [mainGateway_status cl' st' _ t2]
    dsimp only
    rw [hR2]
    rw [mainGateway_status cl st gw t1]
    dsimp only
    rw [proj_stripInfo, proj_stripInfo, hstrip]

/-- The happy path publishes a duplicate-free service list whenever the
incoming store has distinct keys and is well-formed. -/
theorem mainGateway_pairs_nodup (cl : Cluster) (st : GatewayReconciler.RState)
    (gw : Gateway) (now : Nat)
    (hreg : (assocKeys st.registry).Nodup) (hwfs : wfStore st.registry) :
    ((mainGateway cl st gw now).status.mcpServices.map
      fun i => (i.name, i.namesp)).Nodup := by
  rw [mainGateway_status]
  dsimp only
  have hwfs1 : wfStore (mainRegistry cl st gw now) :=
    registerMatching_wfStore _ st.registry now hwfs
  have hkeys1 : (assocKeys (mainRegistry cl st gw now)).Nodup :=
    registerMatching_keys_nodup _ st.registry now hreg
  rw [proj_name_pairs _ hwfs1]
  exact hkeys1.map nn_pair_injective

/-! ### Claim C7 -/

/-- C7: in every reconcile trace, cleanup precedes any finalizer
removal; the deletion path runs cleanup, then removes the finalizer
marker (all its occurrences) and persists; and no reconciliation of a
present, non-deleted Gateway ever removes the finalizer from the trace
or from the stored object. -/
theorem reconcile_cleanup_before_finalizer_removal
    (cl : Cluster) (st : GatewayReconciler.RState) (req : NamespacedName)
    (now : Nat) :
    (∀ (nn : NamespacedName) (i : Nat),
      ((GatewayReconciler.Reconcile cl st req now).2.2.2).get? i =
          some (GatewayReconciler.Action.removeFinalizer nn) →
      ∃ j, j < i ∧ ((GatewayReconciler.Reconcile cl st req now).2.2.2).get? j =
          some (GatewayReconciler.Action.cleanup nn)) ∧
    (∀ gw, getGateway cl req = some gw → gw.deletionTimestamp.isSome = true →
      gatewayFinalizer ∈ gw.finalizers →
      (GatewayReconciler.Reconcile cl st req now).2.2.2 =
          [GatewayReconciler.Action.cleanup gw.key,
           GatewayReconciler.Action.removeFinalizer gw.key] ∧
      (GatewayReconciler.Reconcile cl st req now).2.2.1 =
          GatewayReconciler.cleanupGateway st gw.key ∧
      getGateway (GatewayReconciler.Reconcile cl st req now).2.1 gw.key =
          some { gw with finalizers :=
            gw.finalizers.filter (· ≠ gatewayFinalizer) }) ∧
    (∀ gw, getGateway cl req = some gw → gw.deletionTimestamp = none →
      wfCluster cl →
      (∀ nn, GatewayReconciler.Action.removeFinalizer nn ∉
          (GatewayReconciler.Reconcile cl st req now).2.2.2) ∧
      (gatewayFinalizer ∈ gw.finalizers →
        ∀ gw', getGateway (GatewayReconciler.Reconcile cl st req now).2.1 req =
            some gw' → gatewayFinalizer ∈ gw'.finalizers)) := by
  refine ⟨?_, ?_, ?_⟩
  · intro nn i hi
    rcases hg : getGateway cl req with _ | gw
    · have ht : (GatewayReconciler.Reconcile cl st req now).2.2.2 =
          [GatewayReconciler.Action.cleanup req] := by
        simp [GatewayReconciler.Reconcile, hg]
      rw [ht] at hi
      match i, hi with
      | 0, hi => simp at hi
      | (i + 1), hi => simp [List.get?] at hi
    · by_cases hd : gw.deletionTimestamp.isSome = true
      · by_cases hf : gatewayFinalizer ∈ gw.finalizers
        · have ht : (GatewayReconciler.Reconcile cl st req now).2.2.2 =
              [GatewayReconciler.Action.cleanup gw.key,
               GatewayReconciler.Action.removeFinalizer gw.key] := by
            simp [GatewayReconciler.Reconcile, hg, hd,
              GatewayReconciler.handleDeletion, hf]
          rw [ht] at hi
          match i, hi with
          | 0, hi => simp at hi
          | 1, hi =>
              have hnn : gw.key = nn := by simpa using hi
              exact ⟨0, by omega, by rw [ht]; simp [hnn]⟩
          | (i + 2), hi => simp [List.get?] at hi
        · have ht : (GatewayReconciler.Reconcile cl st req now).2.2.2 =
              [GatewayReconciler.Action.cleanup gw.key] := by
            simp [GatewayReconciler.Reconcile, hg, hd,
              GatewayReconciler.handleDeletion, hf]
          rw [ht] at hi
          match i, hi with
          | 0, hi => simp at hi
          | (i + 1), hi => simp [List.get?] at hi
      · by_cases hf : gatewayFinalizer ∈ gw.finalizers
        · have hdel : gw.deletionTimestamp = none :=
            Option.not_isSome_iff_eq_none.mp hd
          have ht : (GatewayReconciler.Reconcile cl st req now).2.2.2 =
              [GatewayReconciler.Action.statusUpdate req] := by
            rw [Reconcile_main_path cl st req now gw hg hdel hf]
          rw [ht] at hi
          match i, hi with
          | 0, hi => simp at hi
          | (i + 1), hi => simp [List.get?] at hi
        · have ht : (GatewayReconciler.Reconcile cl st req now).2.2.2 =
              [GatewayReconciler.Action.addFinalizer req] := by
            simp [GatewayReconciler.Reconcile, hg, hd, hf]
          rw [ht] at hi
          match i, hi with
          | 0, hi => simp at hi
          | (i + 1), hi => simp [List.get?] at hi
  · intro gw hget hd hf
    refine ⟨?_, ?_, ?_⟩
    · simp [GatewayReconciler.Reconcile, hget, hd,
        GatewayReconciler.handleDeletion, hf]
    · simp [GatewayReconciler.Reconcile, hget, hd,
        GatewayReconciler.handleDeletion, hf]
    · have hcl : (GatewayReconciler.Reconcile cl st req now).2.1 =
          putGateway cl { gw with
            finalizers := gw.finalizers.filter (· ≠ gatewayFinalizer) } := by
        simp [GatewayReconciler.Reconcile, hget, hd,
          GatewayReconciler.handleDeletion, hf]
      rw [hcl]
      have hk : ({ gw with
          finalizers := gw.finalizers.filter (· ≠ gatewayFinalizer) } :
            Gateway).key = gw.key := rfl
      rw [← hk]
      exact getGateway_putGateway_self cl _
  · intro gw hget hdel hwf
    have hkey : gw.key = req := hwf req gw hget
    by_cases hf : gatewayFinalizer ∈ gw.finalizers
    · rw [Reconcile_main_path cl st req now gw hget hdel hf]
      constructor
      · intro nn
        simp
      · intro _ gw' hg'
        have hmk : (mainGateway cl st gw now).key = gw.key := rfl
        have hstored : getGateway cl (mainGateway cl st gw now).key = some gw := by
          rw [hmk, hkey]
          exact hget
        have := getGateway_putGatewayStatus_self cl (mainGateway cl st gw now)
          gw hstored (by rw [hmk, hkey])
        rw [hmk, hkey] at this
        rw [this] at hg'
        have hgw' : gw' = { gw with status := (mainGateway cl st gw now).status } := by
          simpa using hg'.symm
        subst hgw'
        simpa using hf
    · have hd : gw.deletionTimestamp.isSome = false := by simp [hdel]
      have ht : (GatewayReconciler.Reconcile cl st req now).2.2.2 =
          [GatewayReconciler.Action.addFinalizer req] := by
        simp [GatewayReconciler.Reconcile, hget, hd, hf]
      constructor
      · intro nn
        rw [ht]
        simp
      · intro hmem
        exact absurd hmem hf

/-- Witness for the C7 theorem: reconciling a concrete Gateway marked
for deletion emits cleanup before finalizer removal. -/
theorem reconcile_cleanup_before_finalizer_removal_witness :
    (GatewayReconciler.Reconcile
        ⟨[], [(⟨"gw", "ns"⟩,
          ⟨"gw", "ns", 1, some 3, ["fetchfy.ai/finalizer"],
            ⟨8080, [], false, ""⟩, ⟨[], [], ""⟩⟩)]⟩
        ⟨[], [], []⟩ ⟨"gw", "ns"⟩ 0).2.2.2 =
      [GatewayReconciler.Action.cleanup ⟨"gw", "ns"⟩,
       GatewayReconciler.Action.removeFinalizer ⟨"gw", "ns"⟩] :=
  ((reconcile_cleanup_before_finalizer_removal
      ⟨[], [(⟨"gw", "ns"⟩,
        ⟨"gw", "ns", 1, some 3, ["fetchfy.ai/finalizer"],
          ⟨8080, [], false, ""⟩, ⟨[], [], ""⟩⟩)]⟩
      ⟨[], [], []⟩ ⟨"gw", "ns"⟩ 0).2.1
    ⟨"gw", "ns", 1, some 3, ["fetchfy.ai/finalizer"],
      ⟨8080, [], false, ""⟩, ⟨[], [], ""⟩⟩
    rfl rfl (by decide)).1

/-! ### Claim C4 -/

/-- C4 counterexample: reconciling the same Gateway twice over an
unchanged service inventory publishes different statuses, because the
second run re-registers the matching service and stamps a fresh
`lastUpdated` time onto its entry. -/
theorem reconcile_twice_timestamp_counterexample :
    let clX : Cluster :=
      ⟨[⟨"a", "ns", some [("mcp-enabled", "true")], some [], "ClusterIP", [80]⟩],
       [(⟨"gw", "ns"⟩,
         ⟨"gw", "ns", 1, none, ["fetchfy.ai/finalizer"],
           ⟨8080, [], false, ""⟩, ⟨[], [], ""⟩⟩)]⟩
    let stX : GatewayReconciler.RState := ⟨[], [], []⟩
    (getGateway (GatewayReconciler.Reconcile
        (GatewayReconciler.Reconcile clX stX ⟨"gw", "ns"⟩ 0).2.1
        (GatewayReconciler.Reconcile clX stX ⟨"gw", "ns"⟩ 0).2.2.1
        ⟨"gw", "ns"⟩ 1).2.1 ⟨"gw", "ns"⟩).map Gateway.status ≠
      (getGateway (GatewayReconciler.Reconcile clX stX ⟨"gw", "ns"⟩ 0).2.1
        ⟨"gw", "ns"⟩).map Gateway.status := by
  decide

/-- C4 (amended): invoking the Reconciler twice in succession on an
unchanged Gateway with unchanged backend services publishes, the second
time, the same conditions with no churn (no replaced or appended
entries), the same address, and the same service list with no duplicate
entries and equal fields apart from each entry's `lastUpdated`
timestamp, which is refreshed to the second run's registration time. -/
theorem reconcile_twice_stable_status
    (cl : Cluster) (st : GatewayReconciler.RState) (req : NamespacedName)
    (t1 t2 : Nat) (gw : Gateway)
    (hget : getGateway cl req = some gw)
    (hdel : gw.deletionTimestamp = none)
    (hfin : gatewayFinalizer ∈ gw.finalizers)
    (hwf : wfCluster cl)
    (hwfs : wfStore st.registry)
    (hreg : (assocKeys st.registry).Nodup)
    (hsvc : (cl.services.map KService.key).Nodup) :
    ∃ g1 g2,
      getGateway (GatewayReconciler.Reconcile cl st req t1).2.1 req = some g1 ∧
      getGateway (GatewayReconciler.Reconcile
          (GatewayReconciler.Reconcile cl st req t1).2.1
          (GatewayReconciler.Reconcile cl st req t1).2.2.1 req t2).2.1 req =
        some g2 ∧
      g2.status.conditions = g1.status.conditions ∧
      g2.status.address = g1.status.address ∧
      g2.status.mcpServices.map stripInfo =
        g1.status.mcpServices.map stripInfo ∧
      (g1.status.mcpServices.map fun i => (i.name, i.namesp)).Nodup ∧
      (g2.status.mcpServices.map fun i => (i.name, i.namesp)).Nodup := by
  have hkey : gw.key = req := hwf req gw hget
  have h1 := Reconcile_main_path cl st req t1 gw hget hdel hfin
  rw [h1]
  dsimp only
  have hG1key : (mainGateway cl st gw t1).key = req := by
    rw [← hkey]
    rfl
  have hs1 : getGateway cl (mainGateway cl st gw t1).key = some gw := by
    rw [hG1key]
    exact hget
  have hg1 : getGateway (putGatewayStatus cl (mainGateway cl st gw t1)) req =
      some { gw with status := (mainGateway cl st gw t1).status } := by
    have h := getGateway_putGatewayStatus_self cl (mainGateway cl st gw t1)
      gw hs1 rfl
    rwa [hG1key] at h
  have h2 := Reconcile_main_path (putGatewayStatus cl (mainGateway cl st gw t1))
      { registry := mainRegistry cl st gw t1,
        servers := (GatewayReconciler.ensureMCPServer st.servers gw).2,
        tracked := assocUpsert st.tracked gw.key gw } req t2
      { gw with status := (mainGateway cl st gw t1).status } hg1 hdel hfin
  rw [h2]
  dsimp only
  set G1 : Gateway := mainGateway cl st gw t1 with hG1
  set CL1 : Cluster := putGatewayStatus cl G1 with hCL1
  set ST1 : GatewayReconciler.RState :=
    { registry := mainRegistry cl st gw t1,
      servers := (GatewayReconciler.ensureMCPServer st.servers gw).2,
      tracked := assocUpsert st.tracked gw.key gw } with hST1
  set GW1 : Gateway := { gw with status := G1.status } with hGW1
  set G2 : Gateway := mainGateway CL1 ST1 GW1 t2 with hG2
  have hG2key : G2.key = req := by
    rw [← hkey]
    rfl
  have hs2 : getGateway CL1 G2.key = some GW1 := by
    rw [hG2key]
    exact hg1
  have hg2 := getGateway_putGatewayStatus_self CL1 G2 GW1 hs2 rfl
  rw [hG2key] at hg2
  have hmain := mainGateway_twice cl CL1 st ST1 gw t1 t2
    (services_putGatewayStatus cl G1) rfl hsvc
  have hreg1 : (assocKeys ST1.registry).Nodup :=
    registerMatching_keys_nodup _ st.registry t1 hreg
  have hwfs1 : wfStore ST1.registry :=
    registerMatching_wfStore _ st.registry t1 hwfs
  exact ⟨GW1, { GW1 with status := G2.status }, hg1, hg2,
    hmain.1, hmain.2.1, hmain.2.2,
    mainGateway_pairs_nodup cl st gw t1 hreg hwfs,
    mainGateway_pairs_nodup CL1 ST1 GW1 t2 hreg1 hwfs1⟩

/-- Witness for the amended C4 theorem on a concrete one-service
cluster. -/
theorem reconcile_twice_stable_status_witness :
    ∃ g1 g2,
      getGateway (GatewayReconciler.Reconcile
          ⟨[⟨"a", "ns", some [("mcp-enabled", "true")], some [], "ClusterIP", [80]⟩],
           [(⟨"gw", "ns"⟩,
             ⟨"gw", "ns", 1, none, ["fetchfy.ai/finalizer"],
               ⟨8080, [], false, ""⟩, ⟨[], [], ""⟩⟩)]⟩
          ⟨[], [], []⟩ ⟨"gw", "ns"⟩ 0).2.1 ⟨"gw", "ns"⟩ = some g1 ∧
      getGateway (GatewayReconciler.Reconcile
          (GatewayReconciler.Reconcile
            ⟨[⟨"a", "ns", some [("mcp-enabled", "true")], some [], "ClusterIP", [80]⟩],
             [(⟨"gw", "ns"⟩,
               ⟨"gw", "ns", 1, none, ["fetchfy.ai/finalizer"],
                 ⟨8080, [], false, ""⟩, ⟨[], [], ""⟩⟩)]⟩
            ⟨[], [], []⟩ ⟨"gw", "ns"⟩ 0).2.1
          (GatewayReconciler.Reconcile
            ⟨[⟨"a", "ns", some [("mcp-enabled", "true")], some [], "ClusterIP", [80]⟩],
             [(⟨"gw", "ns"⟩,
               ⟨"gw", "ns", 1, none, ["fetchfy.ai/finalizer"],
                 ⟨8080, [], false, ""⟩, ⟨[], [], ""⟩⟩)]⟩
            ⟨[], [], []⟩ ⟨"gw", "ns"⟩ 0).2.2.1 ⟨"gw", "ns"⟩ 1).2.1
        ⟨"gw", "ns"⟩ = some g2 ∧
      g2.status.conditions = g1.status.conditions ∧
      g2.status.address = g1.status.address ∧
      g2.status.mcpServices.map stripInfo =
        g1.status.mcpServices.map stripInfo ∧
      (g1.status.mcpServices.map fun i => (i.name, i.namesp)).Nodup ∧
      (g2.status.mcpServices.map fun i => (i.name, i.namesp)).Nodup :=
  reconcile_twice_stable_status
    ⟨[⟨"a", "ns", some [("mcp-enabled", "true")], some [], "ClusterIP", [80]⟩],
     [(⟨"gw", "ns"⟩,
       ⟨"gw", "ns", 1, none, ["fetchfy.ai/finalizer"],
         ⟨8080, [], false, ""⟩, ⟨[], [], ""⟩⟩)]⟩
    ⟨[], [], []⟩ ⟨"gw", "ns"⟩ 0 1
    ⟨"gw", "ns", 1, none, ["fetchfy.ai/finalizer"],
      ⟨8080, [], false, ""⟩, ⟨[], [], ""⟩⟩
    rfl rfl (by decide)
    (by
      intro nn g hg
      simp only [getGateway, assocLookup] at hg
      split at hg
      · cases hg
        rename_i h
        simpa [Gateway.key] using h
      · cases hg)
    (by intro e he; cases he)
    (by decide) (by decide)

end Fetchfy
